import Mathlib

/-!
Shallow embedding of the leaderboard / ranking / notification subsystem of the
Tetris server (source files `services/game_service.py`, `services/base_service.py`,
`app.py`).

The relational store is modelled as two in-memory tables: a `users` table and a
`game_records` table.  SQL aggregates (`max`, `count(distinct ...)`) are modelled
by the corresponding list operations.  Machine integers are modelled by `Int`
(scores fit comfortably; Python ints are unbounded anyway).  Python's
`round(x, 1)` is modelled exactly on `ℚ` as round-half-to-even at one decimal
place (floating point representation error is out of scope).  Fallible
operations return `Except` values, and the per-call possibility of a
persistence-layer failure is modelled by an explicit `dbFail` flag standing for
"some query in the body raised".
-/

namespace Tetris

/-- A row of the `users` table (`models/user.py`); only the columns the
ranking subsystem reads. -/
structure User where
  id : String
  username : String
deriving Repr, DecidableEq

/-- A row of the `game_records` table (`models/game_record.py`).  `rid` is the
primary key, `created_at` the creation timestamp (modelled as a `Nat`). -/
structure GameRecord where
  rid : Nat
  user_id : String
  score : Int
  level : Int
  lines_cleared : Int
  game_duration : Int
  created_at : Nat
deriving Repr, DecidableEq

/-- The relational store seen by the game service. -/
structure Store where
  users : List User
  records : List GameRecord
deriving Repr, DecidableEq

/-- `User.get_by_id` (`models/base.py`): primary-key lookup. -/
def findUser (s : Store) (uid : String) : Option User :=
  s.users.find? (fun u => u.id == uid)

/-- `GameRecord.query.filter_by(user_id=uid)`. -/
def userRecords (s : Store) (uid : String) : List GameRecord :=
  s.records.filter (fun r => r.user_id == uid)

/-- SQL `func.max` over a column: `none` on an empty set of rows. -/
def listMaxInt : List Int → Option Int
  | [] => none
  | x :: xs =>
    match listMaxInt xs with
    | none => some x
    | some m => some (max x m)

/-- The user's best score: `max(score)` over their records. -/
def userBest (s : Store) (uid : String) : Option Int :=
  listMaxInt ((userRecords s uid).map (·.score))

/-- SQL `distinct(user_id)` over `game_records`. -/
def distinctUsers (s : Store) : List String :=
  (s.records.map (·.user_id)).dedup

/-- Number of records a user owns
(`GameRecord.query.filter_by(user_id=user_id).count()`). -/
def countUserRecords (s : Store) (uid : String) : Nat :=
  (userRecords s uid).length

/-- Round-half-to-even to an integer (the rounding Python's `round` uses). -/
def roundHalfEven (x : ℚ) : ℤ :=
  let f := ⌊x⌋
  let r := x - f
  if r < 1/2 then f
  else if 1/2 < r then f + 1
  else if f % 2 = 0 then f else f + 1

/-- Python `round(x, 1)` on exact rationals. -/
def round1 (x : ℚ) : ℚ :=
  (roundHalfEven (x * 10) : ℚ) / 10

/-- The dictionary returned by `GameService.get_user_rank`. -/
structure RankInfo where
  user_id : String
  username : String
  rank : Nat
  total_users : Nat
  best_score : Int
  percentile : ℚ
deriving Repr, DecidableEq

/-- Body of `GameService.get_user_rank` (`game_service.py:209`), i.e. the
behaviour when no query raises: best score of the user, `none` when they have
no records, otherwise rank = 1 + count of distinct users owning a record with a
strictly higher score, total = count of distinct users with a record, username
from the `users` table or the literal `"Unknown"`, percentile rounded to one
decimal. -/
def user_rank_rows (s : Store) (uid : String) : Option RankInfo :=
  match userBest s uid with
  | none => none
  | some user_best =>
    let better_scores_count :=
      ((s.records.filter (fun r => user_best < r.score)).map (·.user_id)).dedup.length
    let rank := better_scores_count + 1
    let total_users := (distinctUsers s).length
    let username :=
      match findUser s uid with
      | some u => u.username
      | none => "Unknown"
    some {
      user_id := uid
      username := username
      rank := rank
      total_users := total_users
      best_score := user_best
      percentile :=
        if 0 < total_users then
          round1 (((total_users : ℚ) - (rank : ℚ) + 1) / (total_users : ℚ) * 100)
        else 0 }

/-- `GameService.get_user_rank` including its `try/except`: any
persistence-layer failure (`dbFail`) is caught and turned into the normal
return value `None`. -/
def get_user_rank (dbFail : Bool) (s : Store) (uid : String) : Option RankInfo :=
  if dbFail then none else user_rank_rows s uid

/-- One dictionary of the list returned by `GameService.get_leaderboard`. -/
structure LBEntry where
  rank : Nat
  user_id : String
  username : String
  score : Int
  level : Int
  lines_cleared : Int
  game_duration : Int
  achieved_at : Nat
deriving Repr, DecidableEq

/-- The join of `game_service.py:169-187`: keep every record whose score equals
its owner's maximum score (`JOIN` against the grouped subquery), then `JOIN`
against the `users` table on `user_id`. -/
def maxRows (s : Store) : List (GameRecord × User) :=
  (s.records.filter (fun r => userBest s r.user_id == some r.score)).filterMap
    (fun r => (findUser s r.user_id).map (fun u => (r, u)))

/-- Insert into a list kept sorted by score descending (stable on ties). -/
def insertByScore (r : GameRecord × User) : List (GameRecord × User) → List (GameRecord × User)
  | [] => [r]
  | x :: xs => if x.1.score < r.1.score then r :: x :: xs else x :: insertByScore r xs

/-- SQL `ORDER BY score DESC` on the joined rows. -/
def sortByScoreDesc (l : List (GameRecord × User)) : List (GameRecord × User) :=
  l.foldr insertByScore []

/-- Body of `GameService.get_leaderboard` (`game_service.py:156`): join, order
by score descending, apply offset and limit, then assign positional rank
`offset + i + 1` while building the entry dictionaries. -/
def leaderboard_rows (s : Store) (limit offset : Nat) : List LBEntry :=
  let rows := ((sortByScoreDesc (maxRows s)).drop offset).take limit
  rows.enum.map (fun p =>
    { rank := offset + p.1 + 1
      user_id := p.2.2.id
      username := p.2.2.username
      score := p.2.1.score
      level := p.2.1.level
      lines_cleared := p.2.1.lines_cleared
      game_duration := p.2.1.game_duration
      achieved_at := p.2.1.created_at })

/-- `GameService.get_leaderboard` including its `try/except`: any
persistence-layer failure is caught and turned into the normal return value
`[]`. -/
def get_leaderboard (dbFail : Bool) (s : Store) (limit offset : Nat) : List LBEntry :=
  if dbFail then [] else leaderboard_rows s limit offset

/-- The two exception classes of `services/base_service.py` that
`save_game_score` can raise. -/
inductive SvcError where
  | validationError (msg : String) (field : Option String)
  | databaseError (msg : String) (code : String)
deriving Repr, DecidableEq

deriving instance DecidableEq for Except

/-- `BaseService.validate_field_range` (`base_service.py:217`): raises a
`ValidationError` naming the field when the value is outside `[lo, hi]`. -/
def validate_field_range (value lo hi : Int) (field : String) : Except SvcError Unit :=
  if value < lo ∨ hi < value then
    .error (.validationError "value out of range" (some field))
  else .ok ()

/-- `BaseService.validate_required_fields` (`base_service.py:176`) applied to
the five arguments of `save_game_score`: collect the `None` ones; raise naming
the field when exactly one is missing. -/
def validate_required_fields (user_id : Option String)
    (score level lines_cleared game_duration : Option Int) : Except SvcError Unit :=
  let missing :=
    (if user_id.isNone then ["user_id"] else []) ++
    (if score.isNone then ["score"] else []) ++
    (if level.isNone then ["level"] else []) ++
    (if lines_cleared.isNone then ["lines_cleared"] else []) ++
    (if game_duration.isNone then ["game_duration"] else [])
  match missing with
  | [] => .ok ()
  | [m] => .error (.validationError "missing required fields" (some m))
  | _ => .error (.validationError "missing required fields" none)

/-- `GameService._validate_game_data` (`game_service.py:117`): range checks for
score/level/lines_cleared/game_duration against the class constants, then the
two cross-field rules. -/
def _validate_game_data (score level lines_cleared game_duration : Int) :
    Except SvcError Unit :=
  match validate_field_range score 0 999999999 "score" with
  | .error e => .error e
  | .ok _ =>
  match validate_field_range level 1 99 "level" with
  | .error e => .error e
  | .ok _ =>
  match validate_field_range lines_cleared 0 9999 "lines_cleared" with
  | .error e => .error e
  | .ok _ =>
  match validate_field_range game_duration 1 7200 "game_duration" with
  | .error e => .error e
  | .ok _ =>
  if 0 < score ∧ lines_cleared = 0 then
    .error (.validationError "score without cleared lines" (some "lines_cleared"))
  else if 10 < level ∧ lines_cleared < 10 then
    .error (.validationError "level does not match cleared lines" (some "level"))
  else .ok ()

/-- The record `save_game_score` deletes when the per-user cap is reached:
first record of the user ordered by `created_at` ascending
(`game_service.py:81-83`).  On `created_at` ties the earlier row of the table
is taken. -/
def oldestIn : List GameRecord → Option GameRecord
  | [] => none
  | r :: rs =>
    match oldestIn rs with
    | none => some r
    | some b => if r.created_at ≤ b.created_at then some r else some b

/-- The cap-enforcement block of `save_game_score` (`game_service.py:74-86`):
when the user's record count has reached `max_records`, delete their single
oldest record. -/
def evictIfFull (max_records : Nat) (s : Store) (uid : String) : Store :=
  if max_records ≤ countUserRecords s uid then
    match oldestIn (userRecords s uid) with
    | some oldest => { s with records := s.records.erase oldest }
    | none => s
  else s

/-- The `GameRecord(...)` constructed at `game_service.py:89-95`. -/
def newGameRecord (rid now : Nat) (uid : String) (sc lv ln du : Int) : GameRecord :=
  { rid := rid, user_id := uid, score := sc, level := lv,
    lines_cleared := ln, game_duration := du, created_at := now }

/-- The body of the `with self.database_transaction():` block of
`GameService.save_game_score` (`game_service.py:56-108`): required-field
check, user lookup, data validation, cap enforcement (delete the oldest record
when `count >= max_records`), then insertion of the new record.  `rid` and
`now` are the fresh primary key and the creation timestamp of the new row. -/
def save_body (max_records : Nat) (s : Store) (rid now : Nat) (user_id : Option String)
    (score level lines_cleared game_duration : Option Int) :
    Except SvcError (GameRecord × Store) :=
  match validate_required_fields user_id score level lines_cleared game_duration with
  | .error e => .error e
  | .ok _ =>
  match user_id, score, level, lines_cleared, game_duration with
  | some uid, some sc, some lv, some ln, some du =>
    match findUser s uid with
    | none => .error (.validationError "user does not exist" (some "user_id"))
    | some _ =>
      match _validate_game_data sc lv ln du with
      | .error e => .error e
      | .ok _ =>
        let s1 := evictIfFull max_records s uid
        let game_record := newGameRecord rid now uid sc lv ln du
        .ok (game_record, { s1 with records := s1.records ++ [game_record] })
  | _, _, _, _, _ =>
    -- unreachable: the required-field check has already ruled missing values out
    .error (.validationError "missing required fields" none)

/-- `GameService.save_game_score` (`game_service.py:27`) as observed by its
caller.  The body runs inside `database_transaction`, whose catch-all
`except Exception` clause rolls the session back and re-raises every body
exception — the `ValidationError`s included — as a `DatabaseError`
(`base_service.py:125-132`); the outer handler of `save_game_score` then wraps
that `DatabaseError` once more (`game_service.py:113-115`).  Hence on any
validation failure the caller sees a `DatabaseError` and the store is
unchanged; the dead `except ValidationError` clause never fires.  Returns the
resulting store alongside the outcome. -/
def save_game_score (max_records : Nat) (s : Store) (rid now : Nat)
    (user_id : Option String) (score level lines_cleared game_duration : Option Int) :
    Except SvcError GameRecord × Store :=
  match save_body max_records s rid now user_id score level lines_cleared game_duration with
  | .ok (r, s2) => (.ok r, s2)
  | .error _ =>
    (.error (.databaseError "failed to save game score: unknown database error" "DB_ERROR"), s)

/-- The per-session state `app.py` keeps in `connected_clients`; only the
field the notification path reads. -/
structure ClientInfo where
  user_id : Option String
deriving Repr, DecidableEq

/-- The outbound socket events of `app.py` relevant to the submission flow,
each tagged with the session id it is emitted to. -/
inductive OutEvent where
  | game_saved (sid : String) (game_id : Nat) (score : Int) (rank_info : Option RankInfo)
  | leaderboard_updated (sid : String) (leaderboard : List LBEntry)
  | rank_changed (sid : String) (user_id : String) (old_rank new_rank : Option Nat) (score : Int)
  | errorEvent (sid : String) (message : String)
deriving Repr, DecidableEq

/-- The loop of `broadcast_leaderboard_update` (`app.py:161-167`) over a copy
of the subscriber set: each `emit` that raises (`sendFails sid = true`) is
caught individually, logged, and the session discarded from the set; the loop
then continues.  Returns the surviving subscriber set and the sessions the
message was delivered to. -/
def broadcast_loop (sendFails : String → Bool) : List String → List String × List String
  | [] => ([], [])
  | sid :: rest =>
    let p := broadcast_loop sendFails rest
    if sendFails sid then (p.1, p.2) else (sid :: p.1, sid :: p.2)

/-- `broadcast_leaderboard_update` (`app.py:143`): recompute the top-10
leaderboard and send it to every subscribed session, dropping the sessions
whose send fails.  Total — no failure ever reaches the caller (the whole body
additionally sits in a `try/except`).  Returns the new subscriber set and the
delivered `(sid, leaderboard)` messages. -/
def broadcast_leaderboard_update (s : Store) (subscribers : List String)
    (sendFails : String → Bool) : List String × List (String × List LBEntry) :=
  let leaderboard := get_leaderboard false s 10 0
  let p := broadcast_loop sendFails subscribers
  (p.1, p.2.map (fun sid => (sid, leaderboard)))

/-- `sessions_for_user`: the linear scan of `notify_rank_change`
(`app.py:178-179`) collecting every connected session whose recorded user id
is `uid`. -/
def sessions_for (clients : List (String × ClientInfo)) (uid : String) : List String :=
  (clients.filter (fun p => p.2.user_id == some uid)).map (·.1)

/-- `notify_rank_change` (`app.py:174`): send a targeted `rank_changed`
message to each session of the user; when the user has no connected session
the list of sessions is empty and nothing is emitted. -/
def notify_rank_change (clients : List (String × ClientInfo)) (uid : String)
    (old_rank new_rank : Option Nat) (score : Int) : List OutEvent :=
  (sessions_for clients uid).map
    (fun sid => .rank_changed sid uid old_rank new_rank score)

/-- Python truthiness of the `user_id` value extracted from the event data:
`None` and the empty string are falsy. -/
def truthyId : Option String → Bool
  | none => false
  | some s => !(s == "")

/-- The payload of an inbound `game_finished` event; absent keys are `none`
(`data.get(...)` with defaults in the handler). -/
structure GFData where
  user_id : Option String
  score : Option Int
  level : Option Int
  lines_cleared : Option Int
  game_duration : Option Int
deriving Repr, DecidableEq

/-- `handle_game_finished` (`app.py:300`): extract the payload with defaults
(`score` 0, `level` 1, `lines_cleared` 0, `game_duration` 0); only when
`user_id` is truthy and `score > 0` run the submit flow — old-rank lookup,
`save_game_score`, new-rank lookup, `game_saved` confirmation to the
submitting session, leaderboard broadcast, and a `rank_changed` notification
exactly when the old rank differs from the new one.  A `save_game_score`
exception is caught and answered with an `error` event to the submitting
session.  Returns the resulting store, subscriber set, and emitted events. -/
def handle_game_finished (max_records rid now : Nat) (sendFails : String → Bool)
    (s : Store) (clients : List (String × ClientInfo)) (subscribers : List String)
    (sid : String) (data : GFData) : Store × List String × List OutEvent :=
  let user_id := data.user_id
  let score := data.score.getD 0
  let level := data.level.getD 1
  let lines_cleared := data.lines_cleared.getD 0
  let game_duration := data.game_duration.getD 0
  if truthyId user_id ∧ 0 < score then
    let uid := user_id.getD ""
    let old_rank := (get_user_rank false s uid).map (·.rank)
    match save_game_score max_records s rid now user_id (some score) (some level)
        (some lines_cleared) (some game_duration) with
    | (.ok game_record, s2) =>
      let new_rank_info := get_user_rank false s2 uid
      let new_rank := new_rank_info.map (·.rank)
      let saved : OutEvent := .game_saved sid game_record.rid score new_rank_info
      let bc := broadcast_leaderboard_update s2 subscribers sendFails
      let lbEvents := bc.2.map (fun p => OutEvent.leaderboard_updated p.1 p.2)
      let rankEvents :=
        if old_rank ≠ new_rank then notify_rank_change clients uid old_rank new_rank score
        else []
      (s2, bc.1, saved :: (lbEvents ++ rankEvents))
    | (.error _, s2) =>
      (s2, subscribers, [.errorEvent sid "failed to save game score"])
  else
    (s, subscribers, [])

/-! ### Helper lemmas about the query building blocks -/

theorem mem_userRecords {s : Store} {uid : String} {r : GameRecord} :
    r ∈ userRecords s uid ↔ r ∈ s.records ∧ r.user_id = uid := by
  simp [userRecords]

theorem listMaxInt_eq_none_iff {l : List Int} : listMaxInt l = none ↔ l = [] := by
  cases l with
  | nil => simp [listMaxInt]
  | cons x xs =>
    simp only [listMaxInt]
    cases listMaxInt xs <;> simp

theorem listMaxInt_mem {l : List Int} {m : Int} (h : listMaxInt l = some m) : m ∈ l := by
  induction l generalizing m with
  | nil => simp [listMaxInt] at h
  | cons x xs ih =>
    simp only [listMaxInt] at h
    cases hx : listMaxInt xs with
    | none =>
      rw [hx] at h
      simp at h
      simp [h]
    | some b =>
      rw [hx] at h
      simp at h
      rcases max_choice x b with hm | hm <;> rw [hm] at h
      · simp [h]
      · exact List.mem_cons_of_mem _ (h ▸ ih hx)

theorem listMaxInt_le {l : List Int} {m : Int} (h : listMaxInt l = some m) :
    ∀ x ∈ l, x ≤ m := by
  induction l generalizing m with
  | nil => simp
  | cons y ys ih =>
    simp only [listMaxInt] at h
    cases hx : listMaxInt ys with
    | none =>
      rw [hx] at h
      simp at h
      intro x hxm
      rcases List.mem_cons.mp hxm with rfl | hmem
      · exact le_of_eq h
      · exact absurd (listMaxInt_eq_none_iff.mp hx ▸ hmem) (List.not_mem_nil x)
    | some b =>
      rw [hx] at h
      simp at h
      intro x hxm
      rcases List.mem_cons.mp hxm with rfl | hmem
      · exact h ▸ le_max_left x b
      · exact le_trans (ih hx x hmem) (h ▸ le_max_right y b)

/-- `true` when an optional best score strictly exceeds `b`; how the spec
compares "the user's best score" against another best score. -/
def optGT : Option Int → Int → Bool
  | none, _ => false
  | some m, b => decide (b < m)

theorem optGT_userBest_iff {s : Store} {u : String} {b : Int} :
    optGT (userBest s u) b = true ↔ ∃ r, r ∈ s.records ∧ r.user_id = u ∧ b < r.score := by
  unfold userBest
  cases hx : listMaxInt ((userRecords s u).map (·.score)) with
  | none =>
    simp only [optGT]
    rw [listMaxInt_eq_none_iff] at hx
    simp only [List.map_eq_nil_iff] at hx
    constructor
    · intro h; exact absurd h (by simp)
    · rintro ⟨r, hr, hru, _⟩
      exact absurd (mem_userRecords.mpr ⟨hr, hru⟩) (by simp [hx])
  | some m =>
    simp only [optGT, decide_eq_true_eq]
    constructor
    · intro hbm
      have hm := listMaxInt_mem hx
      rcases List.mem_map.mp hm with ⟨r, hr, hscore⟩
      rcases mem_userRecords.mp hr with ⟨hrs, hru⟩
      exact ⟨r, hrs, hru, hscore ▸ hbm⟩
    · rintro ⟨r, hr, hru, hbr⟩
      have : r.score ≤ m :=
        listMaxInt_le hx r.score (List.mem_map.mpr ⟨r, mem_userRecords.mpr ⟨hr, hru⟩, rfl⟩)
      exact lt_of_lt_of_le hbr this

/-- The count the code computes (distinct users owning *some* record with
score above `b`) equals the count the spec describes (distinct users whose
*best* score exceeds `b`). -/
theorem better_count_eq (s : Store) (b : Int) :
    ((s.records.filter (fun r => b < r.score)).map (·.user_id)).dedup.length
      = ((distinctUsers s).filter (fun u => optGT (userBest s u) b)).length := by
  unfold distinctUsers
  apply List.Perm.length_eq
  rw [List.perm_ext_iff_of_nodup (List.nodup_dedup _) ((List.nodup_dedup _).filter _)]
  intro x
  simp only [List.mem_dedup, List.mem_map, List.mem_filter]
  constructor
  · rintro ⟨r, ⟨hrs, hscore⟩, rfl⟩
    refine ⟨⟨r, hrs, rfl⟩, ?_⟩
    exact optGT_userBest_iff.mpr ⟨r, hrs, rfl, by simpa using hscore⟩
  · rintro ⟨⟨r0, _, _⟩, hgt⟩
    rcases optGT_userBest_iff.mp hgt with ⟨r, hrs, hru, hbr⟩
    exact ⟨r, ⟨hrs, by simpa using hbr⟩, hru⟩

/-- C1.  For every user id, `get_user_rank` returns `none` exactly when the
user has zero score records; otherwise the returned record's `best_score` is
the maximum score over the user's records, its `rank` is one plus the number
of distinct users whose best score strictly exceeds that best score, its
`total_users` is the number of distinct users having at least one record, and
its `percentile` is `(total_users - rank + 1) / total_users * 100` rounded to
one decimal place (`0` when `total_users` is `0`). -/
theorem get_user_rank_contract (s : Store) (uid : String) :
    (get_user_rank false s uid = none ↔ userRecords s uid = []) ∧
    (∀ ri, get_user_rank false s uid = some ri →
      listMaxInt ((userRecords s uid).map (·.score)) = some ri.best_score ∧
      ri.rank = ((distinctUsers s).filter (fun u => optGT (userBest s u) ri.best_score)).length + 1 ∧
      ri.total_users = (distinctUsers s).length ∧
      ri.percentile =
        (if 0 < ri.total_users then
          round1 (((ri.total_users : ℚ) - (ri.rank : ℚ) + 1) / (ri.total_users : ℚ) * 100)
        else 0)) := by
  unfold get_user_rank user_rank_rows
  simp only [if_neg (by simp : ¬(false = true))]
  cases hb : userBest s uid with
  | none =>
    refine ⟨by simpa [List.map_eq_nil_iff] using listMaxInt_eq_none_iff.mp hb, ?_⟩
    intro ri h
    simp at h
  | some best =>
    constructor
    · simp only [iff_iff_implies_and_implies]
      constructor
      · intro h; simp at h
      · intro h
        have : userBest s uid = none := by
          unfold userBest
          rw [listMaxInt_eq_none_iff, List.map_eq_nil_iff]
          exact h
        rw [this] at hb
        simp at hb
    · intro ri h
      simp only [Option.some.injEq] at h
      subst h
      exact ⟨hb, congrArg (· + 1) (better_count_eq s best), rfl, rfl⟩

/-- Concrete store for witnesses: three users with best scores 3000, 2000 and
1000. -/
def threeUserStore : Store :=
  { users := [⟨"u1", "alice"⟩, ⟨"u2", "bob"⟩, ⟨"u3", "carol"⟩],
    records := [⟨1, "u1", 3000, 5, 20, 300, 1⟩, ⟨2, "u2", 2000, 5, 20, 300, 2⟩,
                ⟨3, "u3", 1000, 5, 20, 300, 3⟩] }

/-- The rank record `get_user_rank` produces for the 2000-scorer of
`threeUserStore`: rank 2 of 3, best score 2000, percentile 66.7. -/
def threeUserRank2 : RankInfo :=
  (user_rank_rows threeUserStore "u2").getD ⟨"", "", 0, 0, 0, 0⟩

/-- Witness for C1 at `threeUserStore` and user `"u2"`. -/
theorem get_user_rank_contract_witness :
    listMaxInt ((userRecords threeUserStore "u2").map (·.score)) = some threeUserRank2.best_score ∧
    threeUserRank2.rank =
      ((distinctUsers threeUserStore).filter
        (fun u => optGT (userBest threeUserStore u) threeUserRank2.best_score)).length + 1 ∧
    threeUserRank2.total_users = (distinctUsers threeUserStore).length ∧
    threeUserRank2.percentile =
      (if 0 < threeUserRank2.total_users then
        round1 (((threeUserRank2.total_users : ℚ) - (threeUserRank2.rank : ℚ) + 1) /
          (threeUserRank2.total_users : ℚ) * 100)
      else 0) :=
  (get_user_rank_contract threeUserStore "u2").2 threeUserRank2 rfl

/-- C10.  A user id that owns score records but has no row in the `users`
table does not make `get_user_rank` fail or return absent: the result carries
the literal username `"Unknown"` while best score, rank, total users and
percentile are computed as usual. -/
theorem get_user_rank_unknown_username (s : Store) (uid : String)
    (h1 : userRecords s uid ≠ []) (h2 : findUser s uid = none) :
    ∃ ri, get_user_rank false s uid = some ri ∧ ri.username = "Unknown" ∧
      userBest s uid = some ri.best_score ∧
      ri.rank = ((s.records.filter (fun r => ri.best_score < r.score)).map (·.user_id)).dedup.length + 1 ∧
      ri.total_users = (distinctUsers s).length ∧
      ri.percentile =
        (if 0 < ri.total_users then
          round1 (((ri.total_users : ℚ) - (ri.rank : ℚ) + 1) / (ri.total_users : ℚ) * 100)
        else 0) := by
  unfold get_user_rank user_rank_rows
  simp only [Bool.false_eq_true, if_false]
  cases hb : userBest s uid with
  | none =>
    exact absurd (by simpa [List.map_eq_nil_iff] using listMaxInt_eq_none_iff.mp hb) h1
  | some best =>
    rw [h2]
    exact ⟨_, rfl, rfl, rfl, rfl, rfl, rfl⟩

/-- Store whose only score record belongs to a user id absent from the
`users` table. -/
def orphanStore : Store :=
  { users := [], records := [⟨1, "ghost", 500, 2, 3, 60, 1⟩] }

/-- Witness for C10 at `orphanStore` and user `"ghost"`. -/
theorem get_user_rank_unknown_username_witness :
    ∃ ri, get_user_rank false orphanStore "ghost" = some ri ∧ ri.username = "Unknown" ∧
      userBest orphanStore "ghost" = some ri.best_score ∧
      ri.rank = ((orphanStore.records.filter
        (fun r => ri.best_score < r.score)).map (·.user_id)).dedup.length + 1 ∧
      ri.total_users = (distinctUsers orphanStore).length ∧
      ri.percentile =
        (if 0 < ri.total_users then
          round1 (((ri.total_users : ℚ) - (ri.rank : ℚ) + 1) / (ri.total_users : ℚ) * 100)
        else 0) :=
  get_user_rank_unknown_username orphanStore "ghost" (by decide) (by decide)

/-- Store with a single user whose maximum score 100 is achieved by two
different records. -/
def tiedStore : Store :=
  { users := [⟨"u", "alice"⟩],
    records := [⟨1, "u", 100, 1, 5, 60, 10⟩, ⟨2, "u", 100, 2, 6, 70, 11⟩] }

/-- C2 counterexample.  `get_leaderboard` joins each user's records against
that user's maximum score, so a user whose maximum is achieved by two records
appears twice: on `tiedStore` (one distinct user) the leaderboard has two
entries, both for user `"u"` — not "exactly one entry per distinct user". -/
theorem leaderboard_duplicate_on_tied_best :
    (distinctUsers tiedStore).length = 1 ∧
    (get_leaderboard false tiedStore 10 0).length = 2 ∧
    (get_leaderboard false tiedStore 10 0).map (·.user_id) = ["u", "u"] := by
  decide

/-- C3.  On a submission that violates a validation rule, the raised
`ValidationError` does not reach the caller of `save_game_score`: it is
converted by the `database_transaction` context manager's catch-all clause
into a `DatabaseError`.  Evaluated at an unknown user id: `save_body` (the
transaction body) raises the field-naming `ValidationError`, yet the caller
observes a `DatabaseError`; the store is returned unchanged (the rollback). -/
theorem save_wraps_validation_in_database_error :
    save_body 1000 threeUserStore 9 9 (some "nope") (some 10) (some 1) (some 1) (some 60)
      = Except.error (SvcError.validationError "user does not exist" (some "user_id")) ∧
    (save_game_score 1000 threeUserStore 9 9 (some "nope") (some 10) (some 1) (some 1) (some 60)).1
      = Except.error (SvcError.databaseError
          "failed to save game score: unknown database error" "DB_ERROR") ∧
    (save_game_score 1000 threeUserStore 9 9 (some "nope") (some 10) (some 1) (some 1) (some 60)).2
      = threeUserStore := by
  decide

/-- What a caller of `get_leaderboard` observes, as an `Except`: the function
body sits in a `try/except Exception` that returns `[]` on any failure, so
the outcome is a normal return on every path — no exception escapes. -/
def get_leaderboard_outcome (dbFail : Bool) (s : Store) (limit offset : Nat) :
    Except SvcError (List LBEntry) :=
  .ok (get_leaderboard dbFail s limit offset)

/-- What a caller of `get_user_rank` observes, as an `Except`: the `try/except
Exception` returns `None` on any failure, so the outcome is a normal return on
every path — no exception escapes. -/
def get_user_rank_outcome (dbFail : Bool) (s : Store) (uid : String) :
    Except SvcError (Option RankInfo) :=
  .ok (get_user_rank dbFail s uid)

/-- C4 counterexample.  A persistence-layer failure inside `get_leaderboard`
or `get_user_rank` does not propagate to the caller as any error: at a
concrete failing query the caller observes the normal values `[]` and `None`,
indistinguishable from an empty store. -/
theorem ranking_failure_not_propagated :
    get_leaderboard_outcome true threeUserStore 10 0 = Except.ok [] ∧
    get_user_rank_outcome true threeUserStore "u1" = Except.ok none := by
  decide

/-- C4 as amended.  Persistence-layer failures inside the two Ranking Engine
queries are swallowed, not propagated: the caller always observes a normal
return, and under a failure the returns are `[]` and `None` respectively (no
retry is attempted — the functions run their query once). -/
theorem ranking_failure_swallowed (dbFail : Bool) (s : Store) (limit offset : Nat)
    (uid : String) :
    (∃ v, get_leaderboard_outcome dbFail s limit offset = Except.ok v) ∧
    (∃ w, get_user_rank_outcome dbFail s uid = Except.ok w) ∧
    get_leaderboard_outcome true s limit offset = Except.ok [] ∧
    get_user_rank_outcome true s uid = Except.ok none :=
  ⟨⟨_, rfl⟩, ⟨_, rfl⟩, rfl, rfl⟩

/-! ### Validation and submission lemmas -/

theorem validate_field_range_ok_iff {v lo hi : Int} {f : String} :
    validate_field_range v lo hi f = Except.ok () ↔ lo ≤ v ∧ v ≤ hi := by
  unfold validate_field_range
  split_ifs with h <;> simp <;> omega

theorem validate_game_data_ok_iff {sc lv ln du : Int} :
    _validate_game_data sc lv ln du = Except.ok () ↔
      (0 ≤ sc ∧ sc ≤ 999999999 ∧ 1 ≤ lv ∧ lv ≤ 99 ∧ 0 ≤ ln ∧ ln ≤ 9999 ∧
       1 ≤ du ∧ du ≤ 7200 ∧ (0 < sc → 0 < ln) ∧ (10 < lv → 10 ≤ ln)) := by
  unfold _validate_game_data validate_field_range
  split_ifs <;> simp_all <;> omega

theorem save_body_ok {cap : Nat} {s : Store} {rid now : Nat} {uid : String}
    {sc lv ln du : Int} {u : User} (hu : findUser s uid = some u)
    (hv : _validate_game_data sc lv ln du = Except.ok ()) :
    save_body cap s rid now (some uid) (some sc) (some lv) (some ln) (some du) =
      Except.ok (newGameRecord rid now uid sc lv ln du,
        { evictIfFull cap s uid with
          records := (evictIfFull cap s uid).records ++ [newGameRecord rid now uid sc lv ln du] }) := by
  unfold save_body
  simp only [show validate_required_fields (some uid) (some sc) (some lv) (some ln) (some du)
      = Except.ok () from rfl, hu, hv]

theorem save_body_err {cap : Nat} {s : Store} {rid now : Nat} {uid : String}
    {sc lv ln du : Int} {u : User} {e : SvcError} (hu : findUser s uid = some u)
    (hv : _validate_game_data sc lv ln du = Except.error e) :
    save_body cap s rid now (some uid) (some sc) (some lv) (some ln) (some du) =
      Except.error e := by
  unfold save_body
  simp only [show validate_required_fields (some uid) (some sc) (some lv) (some ln) (some du)
      = Except.ok () from rfl, hu, hv]

theorem save_game_score_ok {cap : Nat} {s : Store} {rid now : Nat} {uid : String}
    {sc lv ln du : Int} {u : User} (hu : findUser s uid = some u)
    (hv : _validate_game_data sc lv ln du = Except.ok ()) :
    save_game_score cap s rid now (some uid) (some sc) (some lv) (some ln) (some du) =
      (Except.ok (newGameRecord rid now uid sc lv ln du),
       { evictIfFull cap s uid with
         records := (evictIfFull cap s uid).records ++ [newGameRecord rid now uid sc lv ln du] }) := by
  unfold save_game_score
  rw [save_body_ok hu hv]

theorem save_game_score_err {cap : Nat} {s : Store} {rid now : Nat} {uid : String}
    {sc lv ln du : Int} {u : User} {e : SvcError} (hu : findUser s uid = some u)
    (hv : _validate_game_data sc lv ln du = Except.error e) :
    save_game_score cap s rid now (some uid) (some sc) (some lv) (some ln) (some du) =
      (Except.error (SvcError.databaseError
        "failed to save game score: unknown database error" "DB_ERROR"), s) := by
  unfold save_game_score
  rw [save_body_err hu hv]

/-- C5.  With the submitting user present, `save_game_score` accepts the
payload exactly when score ∈ [0, 999999999], level ∈ [1, 99],
lines_cleared ∈ [0, 9999], duration ∈ [1, 7200], score > 0 implies
lines_cleared > 0 and level > 10 implies lines_cleared ≥ 10; and every
accepted submission persists a record whose fields exactly echo the input. -/
theorem submit_validation_contract (cap : Nat) (s : Store) (rid now : Nat) (uid : String)
    (sc lv ln du : Int) (h : (findUser s uid).isSome = true) :
    ((save_game_score cap s rid now (some uid) (some sc) (some lv) (some ln) (some du)).1.isOk
        = true ↔
      (0 ≤ sc ∧ sc ≤ 999999999 ∧ 1 ≤ lv ∧ lv ≤ 99 ∧ 0 ≤ ln ∧ ln ≤ 9999 ∧
       1 ≤ du ∧ du ≤ 7200 ∧ (0 < sc → 0 < ln) ∧ (10 < lv → 10 ≤ ln))) ∧
    (∀ rec, (save_game_score cap s rid now (some uid) (some sc) (some lv) (some ln) (some du)).1
        = Except.ok rec →
      rec.user_id = uid ∧ rec.score = sc ∧ rec.level = lv ∧ rec.lines_cleared = ln ∧
      rec.game_duration = du ∧
      rec ∈ (save_game_score cap s rid now (some uid) (some sc) (some lv) (some ln)
        (some du)).2.records) := by
  obtain ⟨u, hu⟩ := Option.isSome_iff_exists.mp h
  cases hv : _validate_game_data sc lv ln du with
  | ok v =>
    cases v
    rw [save_game_score_ok hu hv]
    constructor
    · constructor
      · intro _; exact validate_game_data_ok_iff.mp hv
      · intro _; rfl
    · intro rec hrec
      simp only [Except.ok.injEq] at hrec
      subst hrec
      exact ⟨rfl, rfl, rfl, rfl, rfl, List.mem_append_of_mem_right _ (by simp)⟩
  | error e =>
    rw [save_game_score_err hu hv]
    constructor
    · constructor
      · intro hok; simp [Except.isOk, Except.toBool] at hok
      · intro hr
        exact absurd (validate_game_data_ok_iff.mpr hr) (by rw [hv]; simp)
    · intro rec hrec
      simp at hrec

/-- Witness for C5 at `threeUserStore`: the boundary case level 10,
lines_cleared 0, score 0 is accepted, and level 11 with lines_cleared 9 is
rejected. -/
theorem submit_validation_contract_witness :
    (save_game_score 1000 threeUserStore 9 9 (some "u1") (some 0) (some 10) (some 0)
      (some 60)).1.isOk = true ∧
    ¬((save_game_score 1000 threeUserStore 9 9 (some "u1") (some 100) (some 11) (some 9)
      (some 60)).1.isOk = true) := by
  constructor
  · exact (submit_validation_contract 1000 threeUserStore 9 9 "u1" 0 10 0 60
      (by decide)).1.mpr (by omega)
  · intro hok
    have h := (submit_validation_contract 1000 threeUserStore 9 9 "u1" 100 11 9 60
      (by decide)).1.mp hok
    omega

/-! ### Retention-cap lemmas -/

theorem oldestIn_eq_none_iff {l : List GameRecord} : oldestIn l = none ↔ l = [] := by
  cases l with
  | nil => simp [oldestIn]
  | cons r rs =>
    simp only [oldestIn]
    constructor
    · intro h
      split at h
      · simp at h
      · split at h <;> simp at h
    · intro h
      simp at h

theorem oldestIn_mem {l : List GameRecord} {b : GameRecord} (h : oldestIn l = some b) :
    b ∈ l := by
  induction l generalizing b with
  | nil => simp [oldestIn] at h
  | cons r rs ih =>
    simp only [oldestIn] at h
    split at h
    · simp at h; simp [h]
    · rename_i c hsome
      split at h
      · simp at h; simp [h]
      · simp at h
        exact List.mem_cons_of_mem _ (h ▸ ih hsome)

theorem oldestIn_min {l : List GameRecord} {b : GameRecord} (h : oldestIn l = some b) :
    ∀ x ∈ l, b.created_at ≤ x.created_at := by
  induction l generalizing b with
  | nil => simp
  | cons r rs ih =>
    simp only [oldestIn] at h
    split at h
    · rename_i hnone
      simp at h
      subst h
      intro x hxm
      rcases List.mem_cons.mp hxm with rfl | hmem
      · exact le_refl _
      · exact absurd (oldestIn_eq_none_iff.mp hnone ▸ hmem) (List.not_mem_nil x)
    · rename_i c hsome
      split at h
      · rename_i hc
        simp at h
        subst h
        intro x hxm
        rcases List.mem_cons.mp hxm with rfl | hmem
        · exact le_refl _
        · exact le_trans hc (ih hsome x hmem)
      · rename_i hc
        simp at h
        subst h
        intro x hxm
        rcases List.mem_cons.mp hxm with rfl | hmem
        · exact le_of_lt (lt_of_not_le hc)
        · exact ih hsome x hmem

theorem filter_erase_comm {p : GameRecord → Bool} {a : GameRecord} (ha : p a = true)
    (l : List GameRecord) : (l.erase a).filter p = (l.filter p).erase a := by
  induction l with
  | nil => rfl
  | cons b t ih =>
    by_cases hba : b = a
    · subst hba
      rw [List.erase_cons_head, List.filter_cons_of_pos ha, List.erase_cons_head]
    · have hbeq : ¬(b == a) := by simpa using hba
      rw [List.erase_cons_tail hbeq]
      by_cases hpb : p b = true
      · rw [List.filter_cons_of_pos hpb, List.filter_cons_of_pos hpb,
          List.erase_cons_tail hbeq, ih]
      · rw [List.filter_cons_of_neg (by simpa using hpb),
          List.filter_cons_of_neg (by simpa using hpb), ih]

theorem save_ok_inv {cap : Nat} {s : Store} {rid now : Nat} {uid : String}
    {sc lv ln du : Int} {rec : GameRecord} {s2 : Store}
    (hsave : save_game_score cap s rid now (some uid) (some sc) (some lv) (some ln) (some du)
      = (Except.ok rec, s2)) :
    rec = newGameRecord rid now uid sc lv ln du ∧
    s2 = { evictIfFull cap s uid with
           records := (evictIfFull cap s uid).records ++
             [newGameRecord rid now uid sc lv ln du] } := by
  cases hf : findUser s uid with
  | none =>
    unfold save_game_score save_body at hsave
    simp only [show validate_required_fields (some uid) (some sc) (some lv) (some ln) (some du)
        = Except.ok () from rfl, hf] at hsave
    simp at hsave
  | some u =>
    cases hv : _validate_game_data sc lv ln du with
    | error e =>
      rw [save_game_score_err hf hv] at hsave
      simp at hsave
    | ok v =>
      cases v
      rw [save_game_score_ok hf hv] at hsave
      simp at hsave
      exact ⟨hsave.1.symm, hsave.2.symm⟩

theorem countUserRecords_evict (cap : Nat) (s : Store) (uid : String) :
    countUserRecords (evictIfFull cap s uid) uid =
      (if cap ≤ countUserRecords s uid ∧ 0 < countUserRecords s uid
       then countUserRecords s uid - 1 else countUserRecords s uid) := by
  unfold evictIfFull
  by_cases hc : cap ≤ countUserRecords s uid
  · rw [if_pos hc]
    cases ho : oldestIn (userRecords s uid) with
    | none =>
      have hempty : userRecords s uid = [] := oldestIn_eq_none_iff.mp ho
      have h0 : countUserRecords s uid = 0 := by
        rw [countUserRecords, hempty]; rfl
      rw [h0]
      simp
    | some old =>
      have hmem := oldestIn_mem ho
      rcases mem_userRecords.mp hmem with ⟨hrs, hru⟩
      have hp : (fun r => r.user_id == uid) old = true := by simpa using hru
      have hpos : 0 < countUserRecords s uid :=
        List.length_pos.mpr (fun he => by rw [he] at hmem; exact List.not_mem_nil old hmem)
      have hstep : countUserRecords { s with records := s.records.erase old } uid
          = countUserRecords s uid - 1 := by
        show ((s.records.erase old).filter (fun r => r.user_id == uid)).length
          = countUserRecords s uid - 1
        rw [filter_erase_comm hp]
        have : old ∈ s.records.filter (fun r => r.user_id == uid) :=
          List.mem_filter.mpr ⟨hrs, hp⟩
        rw [List.length_erase_of_mem this]
        rfl
      rw [hstep, if_pos ⟨hc, hpos⟩]
  · rw [if_neg hc, if_neg (fun hand => hc hand.1)]

/-- C6.  Assuming the database invariants (record ids unique, the new id
fresh) and a positive cap: whenever a user's record count is at most the cap
before a successful `save_game_score`, it is still at most the cap after; and
when the count has exactly reached the cap, the count stays exactly at the cap
and the user's single oldest record (minimal `created_at`) is evicted from the
store. -/
theorem save_respects_cap (cap : Nat) (s : Store) (rid now : Nat) (uid : String)
    (sc lv ln du : Int) (rec : GameRecord) (s2 : Store)
    (hcap : 1 ≤ cap)
    (hnodup : (s.records.map (·.rid)).Nodup)
    (hfresh : rid ∉ s.records.map (·.rid))
    (hle : countUserRecords s uid ≤ cap)
    (hsave : save_game_score cap s rid now (some uid) (some sc) (some lv) (some ln) (some du)
      = (Except.ok rec, s2)) :
    countUserRecords s2 uid ≤ cap ∧
    (countUserRecords s uid = cap →
      countUserRecords s2 uid = cap ∧
      ∃ oldest, oldestIn (userRecords s uid) = some oldest ∧
        oldest ∈ s.records ∧ oldest.user_id = uid ∧
        (∀ r ∈ userRecords s uid, oldest.created_at ≤ r.created_at) ∧
        oldest ∉ s2.records) := by
  obtain ⟨hrec, hs2⟩ := save_ok_inv hsave
  have hcnt2 : countUserRecords s2 uid
      = countUserRecords (evictIfFull cap s uid) uid + 1 := by
    rw [hs2]
    show (((evictIfFull cap s uid).records ++ [newGameRecord rid now uid sc lv ln du]).filter
      (fun r => r.user_id == uid)).length
      = countUserRecords (evictIfFull cap s uid) uid + 1
    rw [List.filter_append]
    simp [newGameRecord, countUserRecords, userRecords]
  rw [countUserRecords_evict] at hcnt2
  constructor
  · rw [hcnt2]
    split_ifs at hcnt2 ⊢ with hcond
    · omega
    · omega
  · intro heq
    have hpos : 0 < countUserRecords s uid := by omega
    have hnonempty : userRecords s uid ≠ [] := by
      intro he
      rw [countUserRecords, he] at hpos
      exact absurd hpos (by simp)
    cases ho : oldestIn (userRecords s uid) with
    | none => exact absurd (oldestIn_eq_none_iff.mp ho) hnonempty
    | some old =>
      have hmem := oldestIn_mem ho
      rcases mem_userRecords.mp hmem with ⟨hrs, hru⟩
      constructor
      · rw [hcnt2, if_pos ⟨by omega, hpos⟩]
        omega
      · refine ⟨old, rfl, hrs, hru, oldestIn_min ho, ?_⟩
        have hnd : s.records.Nodup := List.Nodup.of_map _ hnodup
        have hnotold : old ∉ s.records.erase old := by
          rw [hnd.erase_eq_filter]
          intro hmem'
          have hne := (List.mem_filter.mp hmem').2
          simp at hne
        have hneq : old ≠ newGameRecord rid now uid sc lv ln du := by
          intro he
          exact hfresh (List.mem_map.mpr ⟨old, hrs, by rw [he]; rfl⟩)
        rw [hs2]
        intro hmem2
        rcases List.mem_append.mp hmem2 with hA | hB
        · -- `old` would have to survive the eviction
          have : (evictIfFull cap s uid).records = s.records.erase old := by
            unfold evictIfFull
            rw [if_pos (by omega), ho]
          rw [this] at hA
          exact hnotold hA
        · simp at hB
          exact hneq hB

/-- Store at the cap for the C6 witness: user `"u1"` already owns two records
and the cap is two. -/
def capStore : Store :=
  { users := [⟨"u1", "alice"⟩],
    records := [⟨1, "u1", 10, 1, 1, 60, 5⟩, ⟨2, "u1", 20, 1, 1, 60, 3⟩] }

/-- The store `save_game_score` produces from `capStore` at cap 2: the record
with `created_at = 3` is gone, the new record is appended. -/
def capStoreAfter : Store :=
  { users := [⟨"u1", "alice"⟩],
    records := [⟨1, "u1", 10, 1, 1, 60, 5⟩, ⟨9, "u1", 30, 1, 1, 60, 9⟩] }

/-- Witness for C6: inserting a third record at cap 2 keeps the count at 2 and
evicts the record with the smallest `created_at`. -/
theorem save_respects_cap_witness :
    countUserRecords capStoreAfter "u1" ≤ 2 ∧
    (countUserRecords capStore "u1" = 2 →
      countUserRecords capStoreAfter "u1" = 2 ∧
      ∃ oldest, oldestIn (userRecords capStore "u1") = some oldest ∧
        oldest ∈ capStore.records ∧ oldest.user_id = "u1" ∧
        (∀ r ∈ userRecords capStore "u1", oldest.created_at ≤ r.created_at) ∧
        oldest ∉ capStoreAfter.records) :=
  save_respects_cap 2 capStore 9 9 "u1" 30 1 1 60 (newGameRecord 9 9 "u1" 30 1 1 60)
    capStoreAfter (by decide) (by decide) (by decide) (by decide) (by decide)

/-! ### Broadcast and notification lemmas -/

theorem broadcast_loop_eq (fails : String → Bool) (l : List String) :
    broadcast_loop fails l =
      (l.filter (fun t => !fails t), l.filter (fun t => !fails t)) := by
  induction l with
  | nil => rfl
  | cons sid rest ih =>
    by_cases hf : fails sid = true <;>
      simp [broadcast_loop, ih, List.filter_cons, hf]

/-- C7.  A broadcast delivers the leaderboard message to every subscribed
session whose send succeeds, regardless of how many other sends fail; each
failing session is removed from the subscriber set (and exactly those); the
function is total, so no failure reaches the caller; and a session that never
subscribed receives nothing. -/
theorem broadcast_failure_isolation (s : Store) (subscribers : List String)
    (fails : String → Bool) (sid : String) :
    ((broadcast_leaderboard_update s subscribers fails).1
        = subscribers.filter (fun t => !fails t)) ∧
    ((broadcast_leaderboard_update s subscribers fails).2
        = (subscribers.filter (fun t => !fails t)).map
            (fun t => (t, get_leaderboard false s 10 0))) ∧
    (fails sid = true → sid ∉ (broadcast_leaderboard_update s subscribers fails).1) ∧
    (sid ∈ subscribers → fails sid = false →
      (sid, get_leaderboard false s 10 0)
        ∈ (broadcast_leaderboard_update s subscribers fails).2) ∧
    (sid ∉ subscribers →
      ∀ lb, (sid, lb) ∉ (broadcast_leaderboard_update s subscribers fails).2) := by
  unfold broadcast_leaderboard_update
  rw [broadcast_loop_eq]
  refine ⟨rfl, rfl, ?_, ?_, ?_⟩
  · intro hf hmem
    have hmem' := (List.mem_filter.mp hmem).2
    simp [hf] at hmem'
  · intro hmem hf
    exact List.mem_map.mpr ⟨sid, List.mem_filter.mpr ⟨hmem, by simp [hf]⟩, rfl⟩
  · intro hnmem lb hmem
    rcases List.mem_map.mp hmem with ⟨t, htf, heq⟩
    have ht : t = sid := congrArg Prod.fst heq
    exact hnmem (ht ▸ (List.mem_filter.mp htf).1)

/-- Send failure used by the C7 witness: only session `"a"` is dead. -/
def brFails : String → Bool := fun t => t == "a"

/-- Witness for C7: with subscribers `["a", "b"]` and session `"a"` failing,
`"a"` is dropped from the set, `"b"` still receives the message, and the
never-subscribed `"c"` receives nothing. -/
theorem broadcast_failure_isolation_witness :
    ("a" ∉ (broadcast_leaderboard_update threeUserStore ["a", "b"] brFails).1) ∧
    (("b", get_leaderboard false threeUserStore 10 0)
        ∈ (broadcast_leaderboard_update threeUserStore ["a", "b"] brFails).2) ∧
    (∀ lb, ("c", lb) ∉ (broadcast_leaderboard_update threeUserStore ["a", "b"] brFails).2) :=
  ⟨(broadcast_failure_isolation threeUserStore ["a", "b"] brFails "a").2.2.1 (by decide),
   (broadcast_failure_isolation threeUserStore ["a", "b"] brFails "b").2.2.2.1
     (by decide) (by decide),
   (broadcast_failure_isolation threeUserStore ["a", "b"] brFails "c").2.2.2.2 (by decide)⟩

/-- Recognises the `rank_changed` events among the handler's output. -/
def isRankChanged : OutEvent → Bool
  | .rank_changed _ _ _ _ _ => true
  | _ => false

theorem handle_game_finished_ok (cap rid now : Nat) (fails : String → Bool) (s : Store)
    (clients : List (String × ClientInfo)) (subscribers : List String) (sid : String)
    (data : GFData) (uid : String) (rec : GameRecord) (s2 : Store)
    (hid : data.user_id = some uid) (hne : uid ≠ "") (hpos : 0 < data.score.getD 0)
    (hsave : save_game_score cap s rid now (some uid) (some (data.score.getD 0))
      (some (data.level.getD 1)) (some (data.lines_cleared.getD 0))
      (some (data.game_duration.getD 0)) = (Except.ok rec, s2)) :
    handle_game_finished cap rid now fails s clients subscribers sid data =
      (s2, (broadcast_leaderboard_update s2 subscribers fails).1,
        OutEvent.game_saved sid rec.rid (data.score.getD 0) (get_user_rank false s2 uid) ::
          ((broadcast_leaderboard_update s2 subscribers fails).2.map
              (fun p => OutEvent.leaderboard_updated p.1 p.2) ++
           (if (get_user_rank false s uid).map (·.rank)
               ≠ (get_user_rank false s2 uid).map (·.rank)
            then notify_rank_change clients uid ((get_user_rank false s uid).map (·.rank))
              ((get_user_rank false s2 uid).map (·.rank)) (data.score.getD 0)
            else []))) := by
  unfold handle_game_finished
  rw [hid]
  rw [if_pos (And.intro (by simp [truthyId, hne]) hpos)]
  rw [hsave]
  rfl

theorem handle_game_finished_err (cap rid now : Nat) (fails : String → Bool) (s : Store)
    (clients : List (String × ClientInfo)) (subscribers : List String) (sid : String)
    (data : GFData) (uid : String) (e : SvcError) (s2 : Store)
    (hid : data.user_id = some uid) (hne : uid ≠ "") (hpos : 0 < data.score.getD 0)
    (hsave : save_game_score cap s rid now (some uid) (some (data.score.getD 0))
      (some (data.level.getD 1)) (some (data.lines_cleared.getD 0))
      (some (data.game_duration.getD 0)) = (Except.error e, s2)) :
    handle_game_finished cap rid now fails s clients subscribers sid data =
      (s2, subscribers, [OutEvent.errorEvent sid "failed to save game score"]) := by
  unfold handle_game_finished
  rw [hid]
  rw [if_pos (And.intro (by simp [truthyId, hne]) hpos)]
  rw [hsave]

theorem filter_rank_lb_events (l : List (String × List LBEntry)) :
    (l.map (fun p => OutEvent.leaderboard_updated p.1 p.2)).filter isRankChanged = [] := by
  induction l with
  | nil => rfl
  | cons x xs ih => simp [isRankChanged, ih]

theorem filter_rank_notify (clients : List (String × ClientInfo)) (uid : String)
    (o n : Option Nat) (sc : Int) :
    (notify_rank_change clients uid o n sc).filter isRankChanged
      = notify_rank_change clients uid o n sc := by
  rw [List.filter_eq_self]
  intro a ha
  rcases List.mem_map.mp ha with ⟨t, _, heq⟩
  rw [← heq]
  rfl

/-- C8.  After a successful persistence, the handler emits `rank_changed`
events exactly when the rank observed before the save differs from the rank
observed after (including the `none`-to-`some` transition), and then exactly
one per connected session of the submitting user; with an unchanged rank no
`rank_changed` is emitted, and with no connected session the notification is
silently dropped (no event, nothing queued). -/
theorem rank_change_notification_iff (cap rid now : Nat) (fails : String → Bool) (s : Store)
    (clients : List (String × ClientInfo)) (subscribers : List String) (sid : String)
    (data : GFData) (uid : String) (rec : GameRecord) (s2 : Store)
    (hid : data.user_id = some uid) (hne : uid ≠ "") (hpos : 0 < data.score.getD 0)
    (hsave : save_game_score cap s rid now (some uid) (some (data.score.getD 0))
      (some (data.level.getD 1)) (some (data.lines_cleared.getD 0))
      (some (data.game_duration.getD 0)) = (Except.ok rec, s2)) :
    ((get_user_rank false s uid).map (·.rank) = (get_user_rank false s2 uid).map (·.rank) →
      ((handle_game_finished cap rid now fails s clients subscribers sid data).2.2.filter
        isRankChanged) = []) ∧
    ((get_user_rank false s uid).map (·.rank) ≠ (get_user_rank false s2 uid).map (·.rank) →
      ((handle_game_finished cap rid now fails s clients subscribers sid data).2.2.filter
          isRankChanged)
        = (sessions_for clients uid).map
            (fun t => OutEvent.rank_changed t uid ((get_user_rank false s uid).map (·.rank))
              ((get_user_rank false s2 uid).map (·.rank)) (data.score.getD 0))) ∧
    (sessions_for clients uid = [] →
      ((handle_game_finished cap rid now fails s clients subscribers sid data).2.2.filter
        isRankChanged) = []) := by
  rw [handle_game_finished_ok cap rid now fails s clients subscribers sid data uid rec s2
    hid hne hpos hsave]
  refine ⟨?_, ?_, ?_⟩
  · intro heq
    rw [if_neg (fun hne' => hne' heq)]
    simp [isRankChanged, List.filter_append, filter_rank_lb_events]
  · intro hneq
    rw [if_pos hneq]
    simp only [List.filter_cons, List.filter_append]
    rw [filter_rank_lb_events, filter_rank_notify]
    simp [isRankChanged, notify_rank_change]
  · intro hses
    by_cases hrank : (get_user_rank false s uid).map (·.rank)
        = (get_user_rank false s2 uid).map (·.rank)
    · rw [if_neg (fun hne' => hne' hrank)]
      simp [isRankChanged, List.filter_append, filter_rank_lb_events]
    · rw [if_pos hrank]
      simp only [List.filter_cons, List.filter_append]
      rw [filter_rank_lb_events, filter_rank_notify]
      simp [isRankChanged, notify_rank_change, hses]

/-- Two users where `"u1"` has no record yet and `"u2"` owns the top score. -/
def overtakeStore : Store :=
  { users := [⟨"u1", "alice"⟩, ⟨"u2", "bob"⟩],
    records := [⟨1, "u2", 100, 1, 5, 60, 1⟩] }

/-- `overtakeStore` after `"u1"` submits a score of 200. -/
def overtakeStoreAfter : Store :=
  { users := [⟨"u1", "alice"⟩, ⟨"u2", "bob"⟩],
    records := [⟨1, "u2", 100, 1, 5, 60, 1⟩, ⟨9, "u1", 200, 2, 3, 60, 9⟩] }

/-- The `game_finished` payload with which `"u1"` overtakes `"u2"`. -/
def overtakeData : GFData := ⟨some "u1", some 200, some 2, some 3, some 60⟩

/-- Witness for C8: `"u1"` goes from unranked to rank 1, and their single
connected session receives exactly one `rank_changed` event. -/
theorem rank_change_notification_iff_witness :
    ((handle_game_finished 1000 9 9 (fun _ => false) overtakeStore
        [("sess1", ⟨some "u1"⟩)] ["sess1"] "sess1" overtakeData).2.2.filter isRankChanged)
      = (sessions_for [("sess1", ⟨some "u1"⟩)] "u1").map
          (fun t => OutEvent.rank_changed t "u1"
            ((get_user_rank false overtakeStore "u1").map (·.rank))
            ((get_user_rank false overtakeStoreAfter "u1").map (·.rank))
            (overtakeData.score.getD 0)) :=
  (rank_change_notification_iff 1000 9 9 (fun _ => false) overtakeStore
      [("sess1", ⟨some "u1"⟩)] ["sess1"] "sess1" overtakeData "u1"
      (newGameRecord 9 9 "u1" 200 2 3 60) overtakeStoreAfter
      rfl (by decide) (by decide) (by decide)).2.1 (by decide)

/-- C9 counterexample.  An inbound `game_finished` event carrying a user id,
a score, a level, lines cleared and a duration — with score 0, which the
validation rules accept — triggers no submit flow at all: the handler gates
on `score > 0`, so the store is unchanged and no event (neither `game_saved`
nor `error`) is emitted. -/
theorem game_finished_zero_score_ignored :
    handle_game_finished 1000 9 9 (fun _ => false) threeUserStore
      [("sess1", ⟨some "u1"⟩)] ["sess1"] "sess1"
      ⟨some "u1", some 0, some 1, some 0, some 60⟩
      = (threeUserStore, ["sess1"], []) := by
  decide

/-- C9 as amended.  Only for a `game_finished` event with a truthy `user_id`
and `score > 0` does the handler run the full submit flow: old-rank lookup,
persistence, new-rank lookup, `game_saved` confirmation to the submitting
session, leaderboard broadcast and the conditional rank-change notification;
on a persistence error it emits an `error` event with a message to the
submitting session; all other events are ignored without any side effect. -/
theorem game_finished_submit_flow (cap rid now : Nat) (fails : String → Bool) (s : Store)
    (clients : List (String × ClientInfo)) (subscribers : List String) (sid : String)
    (data : GFData) :
    (¬(truthyId data.user_id = true ∧ 0 < data.score.getD 0) →
      handle_game_finished cap rid now fails s clients subscribers sid data
        = (s, subscribers, [])) ∧
    (∀ uid, data.user_id = some uid → uid ≠ "" → 0 < data.score.getD 0 →
      (∀ rec s2, save_game_score cap s rid now (some uid) (some (data.score.getD 0))
          (some (data.level.getD 1)) (some (data.lines_cleared.getD 0))
          (some (data.game_duration.getD 0)) = (Except.ok rec, s2) →
        handle_game_finished cap rid now fails s clients subscribers sid data
          = (s2, (broadcast_leaderboard_update s2 subscribers fails).1,
             OutEvent.game_saved sid rec.rid (data.score.getD 0)
                 (get_user_rank false s2 uid) ::
               ((broadcast_leaderboard_update s2 subscribers fails).2.map
                   (fun p => OutEvent.leaderboard_updated p.1 p.2) ++
                (if (get_user_rank false s uid).map (·.rank)
                    ≠ (get_user_rank false s2 uid).map (·.rank)
                 then notify_rank_change clients uid
                   ((get_user_rank false s uid).map (·.rank))
                   ((get_user_rank false s2 uid).map (·.rank)) (data.score.getD 0)
                 else [])))) ∧
      (∀ e s2, save_game_score cap s rid now (some uid) (some (data.score.getD 0))
          (some (data.level.getD 1)) (some (data.lines_cleared.getD 0))
          (some (data.game_duration.getD 0)) = (Except.error e, s2) →
        handle_game_finished cap rid now fails s clients subscribers sid data
          = (s2, subscribers, [OutEvent.errorEvent sid "failed to save game score"]))) := by
  refine ⟨?_, ?_⟩
  · intro hgate
    unfold handle_game_finished
    rw [if_neg hgate]
  · intro uid hid hne hpos
    exact ⟨fun rec s2 hsave => handle_game_finished_ok cap rid now fails s clients subscribers
        sid data uid rec s2 hid hne hpos hsave,
      fun e s2 hsave => handle_game_finished_err cap rid now fails s clients subscribers
        sid data uid e s2 hid hne hpos hsave⟩

/-- Witness for C9 (amended) at the overtake scenario: the handler's full
output — `game_saved`, the broadcast, and the rank-change notification. -/
theorem game_finished_submit_flow_witness :
    handle_game_finished 1000 9 9 (fun _ => false) overtakeStore
        [("sess1", ⟨some "u1"⟩)] ["sess1"] "sess1" overtakeData
      = (overtakeStoreAfter,
         (broadcast_leaderboard_update overtakeStoreAfter ["sess1"] (fun _ => false)).1,
         OutEvent.game_saved "sess1" (newGameRecord 9 9 "u1" 200 2 3 60).rid
             (overtakeData.score.getD 0) (get_user_rank false overtakeStoreAfter "u1") ::
           ((broadcast_leaderboard_update overtakeStoreAfter ["sess1"] (fun _ => false)).2.map
               (fun p => OutEvent.leaderboard_updated p.1 p.2) ++
            (if (get_user_rank false overtakeStore "u1").map (·.rank)
                ≠ (get_user_rank false overtakeStoreAfter "u1").map (·.rank)
             then notify_rank_change [("sess1", ⟨some "u1"⟩)] "u1"
               ((get_user_rank false overtakeStore "u1").map (·.rank))
               ((get_user_rank false overtakeStoreAfter "u1").map (·.rank))
               (overtakeData.score.getD 0)
             else []))) :=
  ((game_finished_submit_flow 1000 9 9 (fun _ => false) overtakeStore
      [("sess1", ⟨some "u1"⟩)] ["sess1"] "sess1" overtakeData).2 "u1" rfl
      (by decide) (by decide)).1 (newGameRecord 9 9 "u1" 200 2 3 60) overtakeStoreAfter
      (by decide)

end Tetris
